import Mathlib

/-!
# Verification of the CNC production-data extraction and aggregation pipeline

Shallow embedding of the core of `src/cnc_machine_analysis.py`:

* `ProductionHTMLParser` (the table tokenizer) as a state machine over a
  stream of HTML events — the event stream itself is produced by Python's
  `html.parser.HTMLParser`, an external library, so the embedding starts at
  the `handle_starttag` / `handle_endtag` / `handle_data` callbacks, which is
  exactly the code of this repository;
* `parse_cycle_time`, including the exception CPython's `float` raises on a
  capture group that is not a valid float literal (modelled with `Except`);
* the per-row field extraction and record filtering of
  `extract_production_data` (file I/O and the filename-date regex are
  external: the derived date string is a parameter);
* the aggregator `calculate_running_hours`, with its finalization formulas.

Python `float` arithmetic is modelled by exact rational arithmetic (`ℚ`);
IEEE-754 rounding is not modelled.  Python `int` is `ℤ`, Python sets are
`Finset String`, and Python dicts are insertion-ordered association lists.
-/

set_option maxRecDepth 8192

namespace Cnc

/-! ## Python string helpers -/

/-- The six ASCII characters Python's `str.strip` / `\s` treat as whitespace.
Non-ASCII Unicode whitespace is not modelled. -/
def pyIsSpace (c : Char) : Bool :=
  c = ' ' || c = '\t' || c = '\n' || c = '\r' || c = '\x0b' || c = '\x0c'

/-- `str.strip()` on the character list. -/
def stripChars (cs : List Char) : List Char :=
  ((cs.dropWhile pyIsSpace).reverse.dropWhile pyIsSpace).reverse

/-- Python `s.strip()`. -/
def pyStrip (s : String) : String :=
  String.mk (stripChars s.toList)

/-- Python `s.replace(",", "")`, as used on the numeric part columns. -/
def stripCommas (s : String) : String :=
  String.mk (s.toList.filter (fun c => c ≠ ','))

/-- Value of a digit string, most significant first (empty list gives 0). -/
def digitsToNat (cs : List Char) : Nat :=
  cs.foldl (fun n c => 10 * n + (c.toNat - 48)) 0

/-- Models CPython `int(s)` for ASCII input: optional surrounding whitespace,
an optional sign, then a nonempty digit run.  (Underscore digit grouping,
accepted by CPython, is not modelled: no claim depends on it.) -/
def parsePyInt (s : String) : Option Int :=
  let cs := stripChars s.toList
  match cs with
  | '+' :: ds => if ds ≠ [] ∧ ds.all Char.isDigit then some (digitsToNat ds) else none
  | '-' :: ds => if ds ≠ [] ∧ ds.all Char.isDigit then some (-(digitsToNat ds : Int)) else none
  | ds => if ds ≠ [] ∧ ds.all Char.isDigit then some (digitsToNat ds) else none

/-! ## `parse_cycle_time` (source lines 77–92)

The regex is `([\d.]+)\s*s`.  `[\d.]+` is greedy; giving characters back can
never help, because a character given back by `[\d.]+` is a digit or a dot,
which matches neither `\s` nor the literal `s`.  Likewise no character given
back by `\s*` can be the literal `s`.  Hence a match attempt at position `i`
succeeds exactly when the maximal `[\d.]`-run starting at `i` is followed by
whitespace and then an `s`; and a failed attempt inside a run fails the same
way the attempt at the start of the run does, so scanning one character at a
time is equivalent to `re.search`. -/

/-- Characters matched by `[\d.]`. -/
def isCycleNumChar (c : Char) : Bool :=
  c.isDigit || c = '.'

/-- The `\s*s` tail of the pattern: skip whitespace, then require `s`. -/
def spacesThenS : List Char → Bool
  | [] => false
  | c :: cs => if pyIsSpace c then spacesThenS cs else c = 's'

/-- `re.search(r'([\d.]+)\s*s', ·)`: the first capture group of the leftmost
match, or `none` when the pattern does not occur. -/
def searchCycleNum : List Char → Option (List Char)
  | [] => none
  | c :: cs =>
    if isCycleNumChar c then
      if spacesThenS ((c :: cs).dropWhile isCycleNumChar) then
        some ((c :: cs).takeWhile isCycleNumChar)
      else searchCycleNum cs
    else searchCycleNum cs

/-- The Python exceptions the modelled code can raise. -/
inductive PyExn : Type
  | valueError : PyExn
deriving DecidableEq

instance {ε α : Type} [DecidableEq ε] [DecidableEq α] : DecidableEq (Except ε α) := fun x y =>
  match x, y with
  | .ok a, .ok b =>
    if h : a = b then isTrue (by rw [h]) else isFalse (fun hh => h (Except.ok.inj hh))
  | .error a, .error b =>
    if h : a = b then isTrue (by rw [h]) else isFalse (fun hh => h (Except.error.inj hh))
  | .ok _, .error _ => isFalse (fun hh => Except.noConfusion hh)
  | .error _, .ok _ => isFalse (fun hh => Except.noConfusion hh)

/-- CPython `float` on a capture-group string (all characters are digits or
dots by construction): defined iff the string has at most one dot and at
least one digit.  `float("1.")` is `1.0` and `float(".5")` is `0.5`;
`float("1.2.3")` raises `ValueError`.  The value is the exact decimal. -/
def floatOfGroup (cs : List Char) : Option ℚ :=
  if cs.count '.' ≤ 1 ∧ cs.any Char.isDigit then
    some ((digitsToNat (cs.takeWhile (fun c => c ≠ '.')) : ℚ) +
      (digitsToNat ((cs.dropWhile (fun c => c ≠ '.')).drop 1) : ℚ) /
        (10 : ℚ) ^ ((cs.dropWhile (fun c => c ≠ '.')).drop 1).length)
  else none

/-- The "empty" sentinel strings of `parse_cycle_time` (source line 84).
The first entry is the literal three-character string of the source — the
bytes `E2 80 9A C3 84 C3 AE`, a mojibake rendering of an em-dash — kept
verbatim; an actual em-dash cell still parses to `none` because the pattern
finds no digits in it. -/
def emptyCycleSentinels : List String :=
  ["‚Äî", "-", "N/A", ""]

/-- The tail of `parse_cycle_time` after the `float` call: a failed
conversion raises `ValueError`, a successful one is minutes, converted to
seconds by `* 60`. -/
def cycleFromFloat : Option ℚ → Except PyExn (Option ℚ)
  | none => .error .valueError
  | some minutes => .ok (some (minutes * 60))

/-- The tail of `parse_cycle_time` after the `re.search`: no match gives
null, a match feeds its capture group to `float`. -/
def cycleFromSearch : Option (List Char) → Except PyExn (Option ℚ)
  | none => .ok none
  | some g => cycleFromFloat (floatOfGroup g)

/-- `parse_cycle_time` (source lines 77–92).  Returns `Except.error` when the
`float` call raises, `.ok none` for sentinels / no pattern match, and
otherwise the extracted value interpreted as minutes and converted to
seconds. -/
def parse_cycle_time (s : String) : Except PyExn (Option ℚ) :=
  if s = "" ∨ emptyCycleSentinels.contains (pyStrip s) then .ok none
  else cycleFromSearch (searchCycleNum s.toList)

/-! ## The table tokenizer `ProductionHTMLParser` (source lines 27–74) -/

/-- A table cell as emitted by the tokenizer.  `cls` is the `class`
attribute of the opening tag (`class` is reserved in Lean). -/
structure RawCell : Type where
  text : String
  cls : String
deriving DecidableEq

/-- The callback events `html.parser.HTMLParser` delivers.  Only the `class`
attribute of a start tag is ever read, so it is the only attribute kept
(`attrs_dict.get('class', '')`). -/
inductive HtmlEvent : Type
  | startTag (tag : String) (classAttr : String) : HtmlEvent
  | endTag (tag : String) : HtmlEvent
  | chunk (s : String) : HtmlEvent
deriving DecidableEq

/-- The mutable state of `ProductionHTMLParser`.  The Python initial value of
`current_td_class` is `None`, but it is overwritten before any cell is
emitted (a `td` end requires `in_td`, set only together with the class), so
a plain string suffices. -/
structure ParserState : Type where
  in_tbody : Bool
  in_tr : Bool
  in_td : Bool
  current_td_class : String
  current_row : List RawCell
  current_cell : List String
  td_count : Nat
  data : List (List RawCell)

/-- The parser state built by `__init__`. -/
def initState : ParserState :=
  { in_tbody := false, in_tr := false, in_td := false, current_td_class := ""
    current_row := [], current_cell := [], td_count := 0, data := [] }

/-- `handle_starttag` (source lines 41–53). -/
def handle_starttag (st : ParserState) (tag classAttr : String) : ParserState :=
  if tag = "tbody" then { st with in_tbody := true }
  else if tag = "tr" ∧ st.in_tbody then
    { st with in_tr := true, current_row := [], td_count := 0 }
  else if tag = "td" ∧ st.in_tr then
    { st with in_td := true, current_cell := [], current_td_class := classAttr }
  else st

/-- `handle_endtag` (source lines 55–70).  A snapshot of the row is appended;
the Python aliasing of the appended list object with `current_row` is not
observable through the emitted data in any modelled execution, because
`current_row` is only ever extended. -/
def handle_endtag (st : ParserState) (tag : String) : ParserState :=
  if tag = "tbody" then { st with in_tbody := false }
  else if tag = "tr" ∧ st.in_tr then
    if 10 ≤ st.current_row.length then
      { st with in_tr := false, data := st.data ++ [st.current_row] }
    else
      { st with in_tr := false }
  else if tag = "td" ∧ st.in_td then
    { st with in_td := false
              current_row :=
                st.current_row ++ [⟨pyStrip (String.join st.current_cell), st.current_td_class⟩]
              td_count := st.td_count + 1 }
  else st

/-- `handle_data` (source lines 72–74). -/
def handle_data (st : ParserState) (s : String) : ParserState :=
  if st.in_td then { st with current_cell := st.current_cell ++ [s] } else st

/-- Dispatch one event to the matching callback. -/
def feedEvent (st : ParserState) : HtmlEvent → ParserState
  | .startTag t c => handle_starttag st t c
  | .endTag t => handle_endtag st t
  | .chunk s => handle_data st s

/-- `parser.feed(html_content)` followed by reading `parser.data`. -/
def tokenize (events : List HtmlEvent) : List (List RawCell) :=
  (events.foldl feedEvent initState).data

/-! ## Field extraction (`extract_production_data`, source lines 95–166) -/

/-- The canonical extracted fact (the dict built at source lines 148–160). -/
structure ProductionRecord : Type where
  date : String
  machine : String
  operation : String
  item : String
  order : String
  ok_parts : Int
  nok_parts : Int
  cycle_time : ℚ
  operator : String
  shift : String
  is_sample : Bool
deriving DecidableEq

/-- Scan for `\(S(\d)\)` (source line 144): the digit of the first
occurrence of `(S<digit>)`.  On a failed attempt the scan restarts one
character later, as `re.search` does. -/
def findShiftDigit : List Char → Option Char
  | [] => none
  | c :: rest =>
    if c = '(' then
      match rest with
      | 'S' :: d :: ')' :: _ => if d.isDigit then some d else findShiftDigit rest
      | _ => findShiftDigit rest
    else findShiftDigit rest

/-- `f"S{shift_match.group(1)}" if shift_match else "Unknown"`. -/
def extractShift (operator : String) : String :=
  match findShiftDigit operator.toList with
  | some d => String.mk ['S', d]
  | none => "Unknown"

/-- `row[i]['text']`, with `''` for an absent cell: inside the extraction
loop every index below 10 is guarded by the length check, and index 10 is
read as `row[10]['text'] if len(row) > 10 else ''`. -/
def cellText (row : List RawCell) (i : Nat) : String :=
  ((row.get? i).map RawCell.text).getD ""

/-- The body of the `for row in parser.data` loop (source lines 116–160):
`.ok none` when the row is skipped, `.ok (some r)` when a record is emitted,
`.error` when `parse_cycle_time` raises. -/
def rowToRecord (file_date : String) (row : List RawCell) : Except PyExn (Option ProductionRecord) :=
  if row.length < 10 then .ok none
  else
    let machine := cellText row 0
    let operation := cellText row 1
    let item := cellText row 2
    let order := cellText row 3
    let ok_parts := (parsePyInt (stripCommas (cellText row 4))).getD 0
    let nok_parts := (parsePyInt (stripCommas (cellText row 5))).getD 0
    match parse_cycle_time (cellText row 7) with
    | .error e => .error e
    | .ok none => .ok none
    | .ok (some ct) =>
      let operator := cellText row 10
      let shift := extractShift operator
      if machine = "" then .ok none
      else
        .ok (some
          { date := file_date, machine := machine, operation := operation, item := item
            order := order, ok_parts := ok_parts, nok_parts := nok_parts, cycle_time := ct
            operator := operator, shift := shift, is_sample := decide (ct = 28800) })

/-- The whole extraction loop over the tokenized rows: the first raised
exception aborts it. -/
def processRows (file_date : String) : List (List RawCell) → Except PyExn (List ProductionRecord)
  | [] => .ok []
  | row :: rest =>
    match rowToRecord file_date row with
    | .error e => .error e
    | .ok none => processRows file_date rest
    | .ok (some r) =>
      match processRows file_date rest with
      | .error e => .error e
      | .ok rs => .ok (r :: rs)

/-- `extract_production_data` (source lines 95–166).  Reading the file and
deriving `file_date` from the filename are external; the surrounding
`try/except` returns the empty list when any exception escapes — the only
modelled exception source is the `float` call inside `parse_cycle_time`. -/
def extract_production_data (file_date : String) (events : List HtmlEvent) :
    List ProductionRecord :=
  match processRows file_date (tokenize events) with
  | .error _ => []
  | .ok rs => rs

/-! ## The aggregator `calculate_running_hours` (source lines 169–245) -/

/-- The accumulator dict created by the `defaultdict` factory
(source lines 180–193).  `shift_counts` is the inner `defaultdict(int)`,
kept as an insertion-ordered association list like a Python dict;
`total_seconds_with_samples` is initialized by the source and never
updated. -/
structure MachineAcc : Type where
  total_parts : Int
  total_parts_with_samples : Int
  sample_parts : Int
  total_seconds : ℚ
  total_seconds_with_samples : ℚ
  sample_seconds : ℚ
  has_samples : Bool
  records : List ProductionRecord
  dates : Finset String
  items : Finset String
  shifts : Finset String
  shift_counts : List (String × Nat)

/-- The fresh accumulator the `defaultdict` factory produces. -/
def emptyAcc : MachineAcc :=
  { total_parts := 0, total_parts_with_samples := 0, sample_parts := 0
    total_seconds := 0, total_seconds_with_samples := 0, sample_seconds := 0
    has_samples := false, records := [], dates := ∅, items := ∅, shifts := ∅
    shift_counts := [] }

/-- `shift_counts[shift] += 1` on a `defaultdict(int)`. -/
def bumpCount : List (String × Nat) → String → List (String × Nat)
  | [], s => [(s, 1)]
  | (k, v) :: rest, s => if k = s then (k, v + 1) :: rest else (k, v) :: bumpCount rest s

/-- `sum(shift_counts.values())`. -/
def countsTotal (l : List (String × Nat)) : Nat :=
  (l.map Prod.snd).sum

/-- `shift_counts.get(s, 0)`: dict lookup, used to compare the mapping. -/
def countOf : List (String × Nat) → String → Nat
  | [], _ => 0
  | (k, v) :: rest, s => if k = s then v else countOf rest s

/-- One iteration of the `for record in records` loop (source lines 195–224). -/
def foldRecord (a : MachineAcc) (r : ProductionRecord) : MachineAcc :=
  let a1 := { a with shift_counts := bumpCount a.shift_counts r.shift }
  let a2 :=
    if r.is_sample then
      let a' :=
        if ¬ a1.has_samples then
          { a1 with sample_seconds := 28800, has_samples := true }
        else a1
      { a' with sample_parts := a'.sample_parts + r.ok_parts }
    else
      { a1 with total_parts := a1.total_parts + r.ok_parts
                total_seconds := a1.total_seconds + (r.ok_parts : ℚ) * r.cycle_time }
  { a2 with total_parts_with_samples := a2.total_parts_with_samples + r.ok_parts
            dates := insert r.date a2.dates
            items := insert r.item a2.items
            shifts := insert r.shift a2.shifts
            records := a2.records ++ [r] }

/-- `machine_stats[record['machine']] = <updated accumulator>`: the outer
`defaultdict` keyed by machine, as an insertion-ordered association list. -/
def updateStats (l : List (String × MachineAcc)) (m : String) (r : ProductionRecord) :
    List (String × MachineAcc) :=
  match l with
  | [] => [(m, foldRecord emptyAcc r)]
  | (k, a) :: rest =>
    if k = m then (k, foldRecord a r) :: rest else (k, a) :: updateStats rest m r

/-- The record-folding phase of `calculate_running_hours`. -/
def foldRecords (rs : List ProductionRecord) : List (String × MachineAcc) :=
  rs.foldl (fun l r => updateStats l r.machine r) []

/-- The finalized per-machine statistics (the same dict after the second
loop, source lines 227–243, overwrote the three sets with sorted lists and
added the derived fields). -/
structure MachineStats : Type where
  total_parts : Int
  total_parts_with_samples : Int
  sample_parts : Int
  total_seconds : ℚ
  total_seconds_with_samples : ℚ
  sample_seconds : ℚ
  has_samples : Bool
  records : List ProductionRecord
  dates : List String
  items : List String
  shifts : List String
  shift_counts : List (String × Nat)
  total_hours : ℚ
  sample_hours : ℚ
  total_hours_with_samples : ℚ
  available_capacity : ℚ
  downtime_hours : ℚ
  availability_percent : ℚ
  downtime_percent : ℚ

/-- `sorted(list(s))` on a Python set of strings. -/
def sortedStrings (s : Finset String) : List String :=
  s.sort (fun a b => a ≤ b)

/-- The body of the finalization loop (source lines 227–243). -/
def finalizeStats (a : MachineAcc) : MachineStats :=
  let total_hours := a.total_seconds / 3600
  let sample_hours := a.sample_seconds / 3600
  let total_hours_with_samples := (a.total_seconds + a.sample_seconds) / 3600
  let available_hours : ℚ := (countsTotal a.shift_counts : ℚ) * 8
  let availability_percent : ℚ :=
    if 0 < available_hours then total_hours_with_samples / available_hours * 100 else 0
  { total_parts := a.total_parts
    total_parts_with_samples := a.total_parts_with_samples
    sample_parts := a.sample_parts
    total_seconds := a.total_seconds
    total_seconds_with_samples := a.total_seconds_with_samples
    sample_seconds := a.sample_seconds
    has_samples := a.has_samples
    records := a.records
    dates := sortedStrings a.dates
    items := sortedStrings a.items
    shifts := sortedStrings a.shifts
    shift_counts := a.shift_counts
    total_hours := total_hours
    sample_hours := sample_hours
    total_hours_with_samples := total_hours_with_samples
    available_capacity := available_hours
    downtime_hours := max 0 (available_hours - total_hours_with_samples)
    availability_percent := availability_percent
    downtime_percent := 100 - availability_percent }

/-- `calculate_running_hours` (source lines 169–245).  The `exclude_samples`
parameter is accepted and, as in the source, never read. -/
def calculate_running_hours (records : List ProductionRecord) (exclude_samples : Bool) :
    List (String × MachineStats) :=
  (foldRecords records).map (fun p => (p.1, finalizeStats p.2))

/-- Association-list lookup (Python dict access on the result). -/
def assocFind {α : Type} : List (String × α) → String → Option α
  | [], _ => none
  | (k, v) :: rest, m => if k = m then some v else assocFind rest m

/-- The finalized statistics of one machine, at the main call site
(`calculate_running_hours(all_records, exclude_samples=True)`). -/
def statsOf (rs : List ProductionRecord) (m : String) : Option MachineStats :=
  assocFind (calculate_running_hours rs true) m

/-! ## Canonical per-machine views, used to characterize the fold -/

/-- The records of one machine, in arrival order. -/
def machineRecords (rs : List ProductionRecord) (m : String) : List ProductionRecord :=
  rs.filter (fun r => decide (r.machine = m))

/-- Folding the per-record loop body over one machine's records. -/
def machineFold (ms : List ProductionRecord) : MachineAcc :=
  ms.foldl foldRecord emptyAcc

/-- Continue an optional accumulator with more records; `none` stays `none`
only when there is nothing to fold (a `defaultdict` entry appears exactly
when it is first touched). -/
def foldInto (o : Option MachineAcc) (ms : List ProductionRecord) : Option MachineAcc :=
  match o, ms with
  | none, [] => none
  | o, ms => some (ms.foldl foldRecord (o.getD emptyAcc))

/-- The sample records among a machine's records. -/
def sampleOnly (ms : List ProductionRecord) : List ProductionRecord :=
  ms.filter (fun r => r.is_sample)

/-- The non-sample (production) records among a machine's records. -/
def productionOnly (ms : List ProductionRecord) : List ProductionRecord :=
  ms.filter (fun r => ! r.is_sample)

/-- Sum of `ok_parts`. -/
def sumOk (ms : List ProductionRecord) : Int :=
  (ms.map ProductionRecord.ok_parts).sum

/-- Sum of `ok_parts × cycle_time` (running seconds). -/
def sumRunSeconds (ms : List ProductionRecord) : ℚ :=
  (ms.map (fun r => (r.ok_parts : ℚ) * r.cycle_time)).sum

/-- An emitted value of a loop body that can also skip or raise. -/
def okSome {α : Type} : Except PyExn (Option α) → Option α
  | .ok (some a) => some a
  | _ => none

/-- Agreement of two finalized `MachineStats` on every statistic: all numeric
accumulators and derived fields, the three sorted date/item/shift lists, and
the `shift_counts` dict compared as a mapping (Python dict equality ignores
insertion order).  The per-machine `records` drill-down lists are only
required to be permutations of one another: they list records in arrival
order. -/
def SameStats (s t : MachineStats) : Prop :=
  s.total_parts = t.total_parts ∧
  s.total_parts_with_samples = t.total_parts_with_samples ∧
  s.sample_parts = t.sample_parts ∧
  s.total_seconds = t.total_seconds ∧
  s.total_seconds_with_samples = t.total_seconds_with_samples ∧
  s.sample_seconds = t.sample_seconds ∧
  s.has_samples = t.has_samples ∧
  List.Perm s.records t.records ∧
  s.dates = t.dates ∧
  s.items = t.items ∧
  s.shifts = t.shifts ∧
  (∀ sh, countOf s.shift_counts sh = countOf t.shift_counts sh) ∧
  countsTotal s.shift_counts = countsTotal t.shift_counts ∧
  s.total_hours = t.total_hours ∧
  s.sample_hours = t.sample_hours ∧
  s.total_hours_with_samples = t.total_hours_with_samples ∧
  s.available_capacity = t.available_capacity ∧
  s.downtime_hours = t.downtime_hours ∧
  s.availability_percent = t.availability_percent ∧
  s.downtime_percent = t.downtime_percent

/-- `SameStats` lifted to the optional per-machine lookup. -/
def SameStatsO : Option MachineStats → Option MachineStats → Prop
  | none, none => True
  | some s, some t => SameStats s t
  | _, _ => False

/-! ## Concrete inputs used by witnesses and counterexamples -/

/-- A record template for aggregator examples. -/
def exRec (machine item : String) (ok : Int) (ct : ℚ) (samp : Bool) : ProductionRecord :=
  { date := "2024-01-15", machine := machine, operation := "OP10", item := item
    order := "A1", ok_parts := ok, nok_parts := 0, cycle_time := ct
    operator := "DOE John (S2)", shift := "S2", is_sample := samp }

/-- One production record and two sample records for machine `M1`. -/
def exListSamples : List ProductionRecord :=
  [exRec "M1" "I1" 100 30 false, exRec "M1" "I2" 5 28800 true, exRec "M1" "I3" 7 28800 true]

/-- The statistics `calculate_running_hours` finalizes for `M1` on
`exListSamples`. -/
def exStatsSamples : MachineStats :=
  finalizeStats (machineFold (machineRecords exListSamples "M1"))

/-- A single record whose running time (1000 parts × 60 s) exceeds the 8-hour
capacity of its one shift occurrence. -/
def exListOver : List ProductionRecord :=
  [exRec "M1" "I1" 1000 60 false]

/-- The statistics finalized for `M1` on `exListOver`. -/
def exStatsOver : MachineStats :=
  finalizeStats (machineFold (machineRecords exListOver "M1"))

/-- Two distinct production records of one machine, used to permute. -/
def exRecA : ProductionRecord := exRec "M1" "I1" 10 30 false

/-- Second record for the permutation example. -/
def exRecB : ProductionRecord := exRec "M1" "I2" 20 40 false

/-- A 10-cell row with the given machine, ok/nok and cycle-time cells. -/
def mkRow (c0 c4 c5 c7 : String) : List RawCell :=
  [⟨c0, ""⟩, ⟨"OP", ""⟩, ⟨"IT", ""⟩, ⟨"ORD", ""⟩, ⟨c4, ""⟩,
   ⟨c5, ""⟩, ⟨"99", ""⟩, ⟨c7, ""⟩, ⟨"", ""⟩, ⟨"80", ""⟩]

/-- A well-formed row: emits a record. -/
def exRowGood : List RawCell := mkRow "M1" "100" "2" "1s"

/-- Non-numeric text in both part columns. -/
def exRowBadNum : List RawCell := mkRow "M1" "abc" "x,y" "1s"

/-- An em-dash cycle-time cell. -/
def exRowDash : List RawCell := mkRow "M1" "100" "2" "—"

/-- An empty machine cell. -/
def exRowNoMachine : List RawCell := mkRow "" "100" "2" "1s"

/-- A cycle-time cell whose capture group `1.2.3` is not a float literal. -/
def exRowExn : List RawCell := mkRow "M1" "100" "2" "1.2.3s"

/-- The events the HTML library delivers for one `<td>` cell. -/
def cellEvents (t : String) : List HtmlEvent :=
  [.startTag "td" "", .chunk t, .endTag "td"]

/-- The events for one `<tr>` row of cells. -/
def rowEvents (cells : List String) : List HtmlEvent :=
  [HtmlEvent.startTag "tr" ""] ++ (cells.map cellEvents).flatten ++ [HtmlEvent.endTag "tr"]

/-- The events for a `<tbody>` of rows. -/
def docEvents (rows : List (List String)) : List HtmlEvent :=
  [HtmlEvent.startTag "tbody" ""] ++ (rows.map rowEvents).flatten ++ [HtmlEvent.endTag "tbody"]

/-- Cell texts of a well-formed document row. -/
def exCellsGood : List String :=
  ["M1", "OP", "IT", "ORD", "100", "2", "99", "1s", "", "80"]

/-- Cell texts of a row whose cycle-time cell raises in `float`. -/
def exCellsExn : List String :=
  ["M1", "OP", "IT", "ORD", "100", "2", "99", "1.2.3s", "", "80"]

/-- A document with a single good row. -/
def exEventsGood : List HtmlEvent := docEvents [exCellsGood]

/-- A document with a good row followed by the malformed-float row. -/
def exEventsBad : List HtmlEvent := docEvents [exCellsGood, exCellsExn]

/-- A document with a short (3-cell) row and a full 10-cell row. -/
def exEventsShort : List HtmlEvent := docEvents [["a", "b", "c"], exCellsGood]

/-- The record `extract_production_data` emits for `exCellsGood` under file
date `2024-01-01`. -/
def exGoodRec : ProductionRecord :=
  { date := "2024-01-01", machine := "M1", operation := "OP", item := "IT"
    order := "ORD", ok_parts := 100, nok_parts := 2, cycle_time := 60
    operator := "", shift := "Unknown", is_sample := false }

/-! ## Helper lemmas: the per-record loop body, field by field -/

/-- The loop body written as a single record update. -/
theorem foldRecord_eq (a : MachineAcc) (r : ProductionRecord) :
    foldRecord a r =
      { total_parts := if r.is_sample then a.total_parts else a.total_parts + r.ok_parts
        total_parts_with_samples := a.total_parts_with_samples + r.ok_parts
        sample_parts := if r.is_sample then a.sample_parts + r.ok_parts else a.sample_parts
        total_seconds :=
          if r.is_sample then a.total_seconds
          else a.total_seconds + (r.ok_parts : ℚ) * r.cycle_time
        total_seconds_with_samples := a.total_seconds_with_samples
        sample_seconds := if r.is_sample ∧ ¬ a.has_samples then 28800 else a.sample_seconds
        has_samples := a.has_samples || r.is_sample
        records := a.records ++ [r]
        dates := insert r.date a.dates
        items := insert r.item a.items
        shifts := insert r.shift a.shifts
        shift_counts := bumpCount a.shift_counts r.shift } := by
  cases hs : r.is_sample <;> cases hh : a.has_samples <;>
    simp [foldRecord, hs, hh]

/-- `total_parts` only accumulates non-sample `ok_parts`. -/
theorem foldl_total_parts :
    ∀ (ms : List ProductionRecord) (a : MachineAcc),
      (ms.foldl foldRecord a).total_parts = a.total_parts + sumOk (productionOnly ms)
  | [], a => by simp [sumOk, productionOnly]
  | r :: ms, a => by
    rw [List.foldl_cons, foldl_total_parts ms]
    cases hs : r.is_sample <;>
      simp [productionOnly, sumOk, foldRecord_eq, hs, add_assoc]

/-- `total_seconds` only accumulates non-sample running seconds. -/
theorem foldl_total_seconds :
    ∀ (ms : List ProductionRecord) (a : MachineAcc),
      (ms.foldl foldRecord a).total_seconds = a.total_seconds + sumRunSeconds (productionOnly ms)
  | [], a => by simp [sumRunSeconds, productionOnly]
  | r :: ms, a => by
    rw [List.foldl_cons, foldl_total_seconds ms]
    cases hs : r.is_sample <;>
      simp [productionOnly, sumRunSeconds, foldRecord_eq, hs, add_assoc]

/-- `sample_parts` accumulates exactly the sample `ok_parts`. -/
theorem foldl_sample_parts :
    ∀ (ms : List ProductionRecord) (a : MachineAcc),
      (ms.foldl foldRecord a).sample_parts = a.sample_parts + sumOk (sampleOnly ms)
  | [], a => by simp [sumOk, sampleOnly]
  | r :: ms, a => by
    rw [List.foldl_cons, foldl_sample_parts ms]
    cases hs : r.is_sample <;>
      simp [sampleOnly, sumOk, foldRecord_eq, hs, add_assoc]

/-- `total_parts_with_samples` accumulates every `ok_parts`. -/
theorem foldl_total_parts_with_samples :
    ∀ (ms : List ProductionRecord) (a : MachineAcc),
      (ms.foldl foldRecord a).total_parts_with_samples = a.total_parts_with_samples + sumOk ms
  | [], a => by simp [sumOk]
  | r :: ms, a => by
    rw [List.foldl_cons, foldl_total_parts_with_samples ms]
    simp [sumOk, foldRecord_eq, add_assoc]

/-- `total_seconds_with_samples` is initialized and never updated. -/
theorem foldl_total_seconds_with_samples :
    ∀ (ms : List ProductionRecord) (a : MachineAcc),
      (ms.foldl foldRecord a).total_seconds_with_samples = a.total_seconds_with_samples
  | [], _ => rfl
  | r :: ms, a => by
    rw [List.foldl_cons, foldl_total_seconds_with_samples ms, foldRecord_eq]

/-- `has_samples` records whether any sample was seen. -/
theorem foldl_has_samples :
    ∀ (ms : List ProductionRecord) (a : MachineAcc),
      (ms.foldl foldRecord a).has_samples = (a.has_samples || ms.any (fun r => r.is_sample))
  | [], a => by simp
  | r :: ms, a => by
    rw [List.foldl_cons, foldl_has_samples ms]
    simp [foldRecord_eq, Bool.or_assoc]

/-- `sample_seconds` is set to the flat 28 800 on the first sample only. -/
theorem foldl_sample_seconds :
    ∀ (ms : List ProductionRecord) (a : MachineAcc),
      (ms.foldl foldRecord a).sample_seconds =
        if a.has_samples then a.sample_seconds
        else if ms.any (fun r => r.is_sample) then 28800 else a.sample_seconds
  | [], a => by simp
  | r :: ms, a => by
    rw [List.foldl_cons, foldl_sample_seconds ms]
    cases hs : r.is_sample <;> cases hh : a.has_samples <;>
      simp [foldRecord_eq, hs, hh]

/-- `records` appends every folded record, in order. -/
theorem foldl_records :
    ∀ (ms : List ProductionRecord) (a : MachineAcc),
      (ms.foldl foldRecord a).records = a.records ++ ms
  | [], a => by simp
  | r :: ms, a => by
    rw [List.foldl_cons, foldl_records ms]
    simp [foldRecord_eq]

/-- `dates` accumulates the set of dates. -/
theorem foldl_dates :
    ∀ (ms : List ProductionRecord) (a : MachineAcc),
      (ms.foldl foldRecord a).dates = a.dates ∪ (ms.map ProductionRecord.date).toFinset
  | [], a => by simp
  | r :: ms, a => by
    rw [List.foldl_cons, foldl_dates ms]
    simp [foldRecord_eq, Finset.insert_union, Finset.union_insert]

/-- `items` accumulates the set of items. -/
theorem foldl_items :
    ∀ (ms : List ProductionRecord) (a : MachineAcc),
      (ms.foldl foldRecord a).items = a.items ∪ (ms.map ProductionRecord.item).toFinset
  | [], a => by simp
  | r :: ms, a => by
    rw [List.foldl_cons, foldl_items ms]
    simp [foldRecord_eq, Finset.insert_union, Finset.union_insert]

/-- `shifts` accumulates the set of shifts. -/
theorem foldl_shifts :
    ∀ (ms : List ProductionRecord) (a : MachineAcc),
      (ms.foldl foldRecord a).shifts = a.shifts ∪ (ms.map ProductionRecord.shift).toFinset
  | [], a => by simp
  | r :: ms, a => by
    rw [List.foldl_cons, foldl_shifts ms]
    simp [foldRecord_eq, Finset.insert_union, Finset.union_insert]

/-- Bumping a shift count adds one to that key. -/
theorem countOf_bumpCount :
    ∀ (l : List (String × Nat)) (s t : String),
      countOf (bumpCount l s) t = countOf l t + (if s = t then 1 else 0)
  | [], s, t => by
    by_cases h : s = t <;> simp [bumpCount, countOf, h]
  | (k, v) :: rest, s, t => by
    by_cases hks : k = s
    · subst hks
      by_cases hkt : k = t <;> simp [bumpCount, countOf, hkt]
    · by_cases hkt : k = t
      · have hst : ¬ s = t := fun h => hks (hkt.trans h.symm)
        have hts : ¬ t = s := fun h => hst h.symm
        simp [bumpCount, countOf, hks, hkt, hst, hts]
      · simp [bumpCount, countOf, hks, hkt, countOf_bumpCount rest s t]

/-- Bumping a shift count adds one to the total. -/
theorem countsTotal_bumpCount :
    ∀ (l : List (String × Nat)) (s : String),
      countsTotal (bumpCount l s) = countsTotal l + 1
  | [], s => by simp [bumpCount, countsTotal]
  | (k, v) :: rest, s => by
    have ih := countsTotal_bumpCount rest s
    by_cases h : k = s <;> simp [bumpCount, countsTotal, h] at ih ⊢ <;> omega

/-- The per-shift occurrence count is the number of records of that shift. -/
theorem foldl_countOf :
    ∀ (ms : List ProductionRecord) (a : MachineAcc) (t : String),
      countOf (ms.foldl foldRecord a).shift_counts t =
        countOf a.shift_counts t + ms.countP (fun r => decide (r.shift = t))
  | [], a, t => by simp
  | r :: ms, a, t => by
    rw [List.foldl_cons, foldl_countOf ms]
    by_cases h : r.shift = t <;>
      simp [foldRecord_eq, countOf_bumpCount, h, List.countP_cons, Nat.add_assoc,
        Nat.add_comm 1]

/-- The total shift-occurrence count is the number of records folded. -/
theorem foldl_countsTotal :
    ∀ (ms : List ProductionRecord) (a : MachineAcc),
      countsTotal (ms.foldl foldRecord a).shift_counts = countsTotal a.shift_counts + ms.length
  | [], a => by simp
  | r :: ms, a => by
    rw [List.foldl_cons, foldl_countsTotal ms]
    simp [foldRecord_eq, countsTotal_bumpCount, Nat.add_assoc, Nat.add_comm 1]

/-! ## Helper lemmas: locating one machine's accumulator in the fold -/

/-- `foldInto` over no records is the identity. -/
theorem foldInto_nil (o : Option MachineAcc) : foldInto o [] = o := by
  cases o <;> rfl

/-- `foldInto` over at least one record always yields an entry. -/
theorem foldInto_cons (o : Option MachineAcc) (r : ProductionRecord)
    (ms : List ProductionRecord) :
    foldInto o (r :: ms) = some ((r :: ms).foldl foldRecord (o.getD emptyAcc)) := by
  cases o <;> rfl

/-- `foldInto` from an existing entry is a plain fold. -/
theorem foldInto_some (a : MachineAcc) (ms : List ProductionRecord) :
    foldInto (some a) ms = some (ms.foldl foldRecord a) := by
  cases ms <;> rfl

/-- Updating key `k` changes only the entry at `k`, folding one record into
it (creating it from the `defaultdict` factory when absent). -/
theorem assocFind_updateStats (l : List (String × MachineAcc)) (k m : String)
    (r : ProductionRecord) :
    assocFind (updateStats l k r) m =
      if k = m then some (foldRecord ((assocFind l m).getD emptyAcc) r)
      else assocFind l m := by
  induction l with
  | nil => by_cases h : k = m <;> simp [updateStats, assocFind, h]
  | cons p rest ih =>
    obtain ⟨k', a⟩ := p
    by_cases hk : k' = k
    · subst hk
      by_cases hm : k' = m <;> simp [updateStats, assocFind, hm]
    · by_cases hm : k' = m
      · subst hm
        have : ¬ k = k' := fun h => hk h.symm
        simp [updateStats, assocFind, hk, this]
      · simp [updateStats, assocFind, hk, hm, ih]

/-- The machine-keyed fold, located at one machine: it folds exactly that
machine's records, in order. -/
theorem assocFind_foldl_updateStats :
    ∀ (rs : List ProductionRecord) (l : List (String × MachineAcc)) (m : String),
      assocFind (rs.foldl (fun acc r => updateStats acc r.machine r) l) m =
        foldInto (assocFind l m) (machineRecords rs m)
  | [], l, m => by simp [machineRecords, foldInto_nil]
  | r :: rs, l, m => by
    rw [List.foldl_cons, assocFind_foldl_updateStats rs]
    by_cases h : r.machine = m
    · rw [assocFind_updateStats, if_pos h]
      have hm : machineRecords (r :: rs) m = r :: machineRecords rs m := by
        simp [machineRecords, h]
      rw [hm, foldInto_cons]
      cases hfind : assocFind l m with
      | none => simp [foldInto_some]
      | some a => simp [foldInto_some]
    · rw [assocFind_updateStats, if_neg h]
      have hm : machineRecords (r :: rs) m = machineRecords rs m := by
        simp [machineRecords, h]
      rw [hm]

/-- `assocFind` through the finalization `map`. -/
theorem assocFind_map_finalize (l : List (String × MachineAcc)) (m : String) :
    assocFind (l.map (fun p => (p.1, finalizeStats p.2))) m =
      (assocFind l m).map finalizeStats := by
  induction l with
  | nil => rfl
  | cons p rest ih =>
    obtain ⟨k, a⟩ := p
    by_cases h : k = m <;> simp [assocFind, h, ih]

/-- The central characterization: the finalized statistics of machine `m`
exist iff `m` has a record, and are the finalization of folding exactly
`m`'s records, in arrival order. -/
theorem statsOf_char (rs : List ProductionRecord) (m : String) :
    statsOf rs m =
      if machineRecords rs m = [] then none
      else some (finalizeStats (machineFold (machineRecords rs m))) := by
  unfold statsOf calculate_running_hours foldRecords
  rw [assocFind_map_finalize, assocFind_foldl_updateStats]
  cases hms : machineRecords rs m with
  | nil => simp [foldInto_nil, assocFind]
  | cons r ms => simp [foldInto_cons, assocFind, machineFold, emptyAcc]

/-! ## Helper lemmas: projections of the finalization step -/

/-- `finalizeStats` carries the accumulated fields through unchanged and
computes the derived ones by the source formulas. -/
theorem finalizeStats_eq (a : MachineAcc) :
    finalizeStats a =
      { total_parts := a.total_parts
        total_parts_with_samples := a.total_parts_with_samples
        sample_parts := a.sample_parts
        total_seconds := a.total_seconds
        total_seconds_with_samples := a.total_seconds_with_samples
        sample_seconds := a.sample_seconds
        has_samples := a.has_samples
        records := a.records
        dates := sortedStrings a.dates
        items := sortedStrings a.items
        shifts := sortedStrings a.shifts
        shift_counts := a.shift_counts
        total_hours := a.total_seconds / 3600
        sample_hours := a.sample_seconds / 3600
        total_hours_with_samples := (a.total_seconds + a.sample_seconds) / 3600
        available_capacity := (countsTotal a.shift_counts : ℚ) * 8
        downtime_hours :=
          max 0 ((countsTotal a.shift_counts : ℚ) * 8 -
            (a.total_seconds + a.sample_seconds) / 3600)
        availability_percent :=
          if 0 < (countsTotal a.shift_counts : ℚ) * 8 then
            ((a.total_seconds + a.sample_seconds) / 3600) /
              ((countsTotal a.shift_counts : ℚ) * 8) * 100
          else 0
        downtime_percent :=
          100 -
            if 0 < (countsTotal a.shift_counts : ℚ) * 8 then
              ((a.total_seconds + a.sample_seconds) / 3600) /
                ((countsTotal a.shift_counts : ℚ) * 8) * 100
            else 0 } := rfl

/-! ## Claim C1 — sample de-duplication -/

/-- C1: for every aggregation run and every machine with at least one sample
record, the finalized `MachineStats` has `sample_seconds` exactly 28 800
regardless of how many sample records there are, `sample_parts` equal to the
sum of `ok_parts` over the machine's sample records, and no sample record
contributes to `total_seconds` or `total_parts` (those equal the sums over
the machine's non-sample records only). -/
theorem claim_sample_dedup (rs : List ProductionRecord) (m : String) (st : MachineStats)
    (hst : statsOf rs m = some st)
    (hN : ∃ r, r ∈ rs ∧ r.machine = m ∧ r.is_sample = true) :
    st.sample_seconds = 28800 ∧
    st.sample_parts = sumOk (sampleOnly (machineRecords rs m)) ∧
    st.total_seconds = sumRunSeconds (productionOnly (machineRecords rs m)) ∧
    st.total_parts = sumOk (productionOnly (machineRecords rs m)) := by
  rw [statsOf_char] at hst
  by_cases hms : machineRecords rs m = []
  · simp [hms] at hst
  · rw [if_neg hms] at hst
    obtain rfl := Option.some.inj hst
    obtain ⟨r, hr, hrm, hrs⟩ := hN
    have hmem : r ∈ machineRecords rs m :=
      List.mem_filter.mpr ⟨hr, by simp [hrm]⟩
    have hany : (machineRecords rs m).any (fun r => r.is_sample) = true :=
      List.any_eq_true.mpr ⟨r, hmem, hrs⟩
    refine ⟨?_, ?_, ?_, ?_⟩ <;>
      simp [finalizeStats_eq, machineFold, foldl_sample_seconds, foldl_sample_parts,
        foldl_total_seconds, foldl_total_parts, emptyAcc, hany]

/-- Witness for C1 on `exListSamples`: two sample records of 5 and 7 parts
give `sample_seconds = 28800`, `sample_parts = 12`, while the one production
record gives `total_seconds = 3000` and `total_parts = 100`. -/
theorem claim_sample_dedup_witness :
    exStatsSamples.sample_seconds = 28800 ∧ exStatsSamples.sample_parts = 12 ∧
    exStatsSamples.total_seconds = 3000 ∧ exStatsSamples.total_parts = 100 := by
  have hst : statsOf exListSamples "M1" = some exStatsSamples := by
    rw [statsOf_char, if_neg (by decide)]
    rfl
  obtain ⟨h1, h2, h3, h4⟩ :=
    claim_sample_dedup exListSamples "M1" exStatsSamples hst
      ⟨exRec "M1" "I2" 5 28800 true, by simp [exListSamples], rfl, rfl⟩
  refine ⟨h1, ?_, ?_, ?_⟩
  · rw [h2]; decide
  · rw [h3]
    norm_num [sumRunSeconds, productionOnly, machineRecords, exListSamples, exRec]
  · rw [h4]; decide

/-! ## Claim C5 — non-negative downtime -/

/-- C5: every finalized `MachineStats` has `downtime_hours ≥ 0`; the value is
floored at zero by the `max`, so it is never negative even when
`total_hours_with_samples` exceeds `available_capacity`. -/
theorem claim_downtime_nonneg (rs : List ProductionRecord) (m : String) (st : MachineStats)
    (hst : statsOf rs m = some st) :
    0 ≤ st.downtime_hours := by
  rw [statsOf_char] at hst
  by_cases hms : machineRecords rs m = []
  · simp [hms] at hst
  · rw [if_neg hms] at hst
    obtain rfl := Option.some.inj hst
    simp [finalizeStats_eq]

/-- Witness for C5 on `exListOver`, a machine whose running time (16 h 40 m)
exceeds its 8-hour capacity: downtime is still not negative. -/
theorem claim_downtime_nonneg_witness : 0 ≤ exStatsOver.downtime_hours :=
  claim_downtime_nonneg exListOver "M1" exStatsOver
    (by rw [statsOf_char, if_neg (by decide)]; rfl)

/-! ## Claim C6 — capacity and availability formulas -/

/-- C6: every finalized `MachineStats` has `available_capacity` equal to the
sum of its `shift_counts` values times 8 hours (equivalently, 8 hours per
record of the machine), and `availability_percent` equal to
`total_hours_with_samples / available_capacity × 100` when the capacity is
positive and 0 when it is zero — a guard, not an exception (the finalization
is a total function). -/
theorem claim_capacity_availability (rs : List ProductionRecord) (m : String)
    (st : MachineStats) (hst : statsOf rs m = some st) :
    st.available_capacity = (countsTotal st.shift_counts : ℚ) * 8 ∧
    st.available_capacity = ((machineRecords rs m).length : ℚ) * 8 ∧
    st.availability_percent =
      (if 0 < st.available_capacity then
        st.total_hours_with_samples / st.available_capacity * 100
      else 0) := by
  rw [statsOf_char] at hst
  by_cases hms : machineRecords rs m = []
  · simp [hms] at hst
  · rw [if_neg hms] at hst
    obtain rfl := Option.some.inj hst
    have hc : countsTotal (machineFold (machineRecords rs m)).shift_counts =
        (machineRecords rs m).length := by
      rw [machineFold, foldl_countsTotal]
      simp [emptyAcc, countsTotal]
    refine ⟨?_, ?_, ?_⟩ <;> simp [finalizeStats_eq, hc]

/-- Witness for C6 on `exListSamples`: three records give a 24-hour
capacity, and the positive-capacity branch of the availability formula. -/
theorem claim_capacity_availability_witness :
    exStatsSamples.available_capacity = (countsTotal exStatsSamples.shift_counts : ℚ) * 8 ∧
    exStatsSamples.available_capacity = ((machineRecords exListSamples "M1").length : ℚ) * 8 ∧
    exStatsSamples.availability_percent =
      (if 0 < exStatsSamples.available_capacity then
        exStatsSamples.total_hours_with_samples / exStatsSamples.available_capacity * 100
      else 0) :=
  claim_capacity_availability exListSamples "M1" exStatsSamples
    (by rw [statsOf_char, if_neg (by decide)]; rfl)

/-! ## Claim C9 — unclamped percentages above capacity -/

/-- C9: when a finalized machine has positive capacity and
`total_hours_with_samples` strictly above it, `availability_percent` is
strictly greater than 100 and `downtime_percent = 100 − availability_percent`
is strictly negative: unlike `downtime_hours`, the percentages are not
clamped. -/
theorem claim_percent_not_clamped (rs : List ProductionRecord) (m : String)
    (st : MachineStats) (hst : statsOf rs m = some st)
    (hover : st.available_capacity < st.total_hours_with_samples)
    (hpos : 0 < st.available_capacity) :
    100 < st.availability_percent ∧ st.downtime_percent < 0 := by
  rw [statsOf_char] at hst
  by_cases hms : machineRecords rs m = []
  · simp [hms] at hst
  · rw [if_neg hms] at hst
    obtain rfl := Option.some.inj hst
    simp only [finalizeStats_eq] at hover hpos ⊢
    rw [if_pos hpos]
    have h1 : (1 : ℚ) < ((machineFold (machineRecords rs m)).total_seconds +
        (machineFold (machineRecords rs m)).sample_seconds) / 3600 /
        ((countsTotal (machineFold (machineRecords rs m)).shift_counts : ℚ) * 8) :=
      (one_lt_div hpos).mpr hover
    constructor
    · calc (100 : ℚ) = 1 * 100 := by norm_num
      _ < _ := by
        exact mul_lt_mul_of_pos_right h1 (by norm_num)
    · have : (100 : ℚ) < ((machineFold (machineRecords rs m)).total_seconds +
          (machineFold (machineRecords rs m)).sample_seconds) / 3600 /
          ((countsTotal (machineFold (machineRecords rs m)).shift_counts : ℚ) * 8) * 100 := by
        calc (100 : ℚ) = 1 * 100 := by norm_num
        _ < _ := mul_lt_mul_of_pos_right h1 (by norm_num)
      linarith

/-- Witness for C9 on `exListOver`: 1000 parts × 60 s = 16 h 40 m of running
time against one 8-hour shift gives availability above 100 % and negative
downtime percent. -/
theorem claim_percent_not_clamped_witness :
    100 < exStatsOver.availability_percent ∧ exStatsOver.downtime_percent < 0 := by
  have hst : statsOf exListOver "M1" = some exStatsOver := by
    rw [statsOf_char, if_neg (by decide)]
    rfl
  have hts : (machineFold (machineRecords exListOver "M1")).total_seconds = 60000 := by
    rw [machineFold, foldl_total_seconds]
    norm_num [emptyAcc, sumRunSeconds, productionOnly, machineRecords, exListOver, exRec]
  have hss : (machineFold (machineRecords exListOver "M1")).sample_seconds = 0 := by
    rw [machineFold, foldl_sample_seconds]
    simp [emptyAcc, machineRecords, exListOver, exRec]
  have hct : countsTotal (machineFold (machineRecords exListOver "M1")).shift_counts = 1 := by
    rw [machineFold, foldl_countsTotal]
    simp [emptyAcc, countsTotal]
    decide
  refine claim_percent_not_clamped exListOver "M1" exStatsOver hst ?_ ?_
  · show exStatsOver.available_capacity < exStatsOver.total_hours_with_samples
    simp only [exStatsOver, finalizeStats_eq, hts, hss, hct]
    norm_num
  · show (0 : ℚ) < exStatsOver.available_capacity
    simp only [exStatsOver, finalizeStats_eq, hct]
    norm_num

/-! ## Shared evaluation facts about the cycle-time parser -/

/-- `"1s"` parses to 1 minute, i.e. 60 seconds. -/
theorem parse_1s : parse_cycle_time "1s" = .ok (some 60) := by
  have hc : ¬ ("1s" = "" ∨ emptyCycleSentinels.contains (pyStrip "1s")) := by decide
  have h3 : searchCycleNum ("1s").toList = some ['1'] := by decide
  have h4 : floatOfGroup ['1'] = some 1 := by
    unfold floatOfGroup
    rw [if_pos (by decide)]
    have d1 : digitsToNat (['1'].takeWhile (fun c => c ≠ '.')) = 1 := by decide
    have d2 : (['1'].dropWhile (fun c => c ≠ '.')).drop 1 = [] := by decide
    rw [d2, d1]
    norm_num [digitsToNat]
  unfold parse_cycle_time
  rw [if_neg hc, h3]
  simp only [cycleFromSearch]
  rw [h4]
  simp only [cycleFromFloat, Except.ok.injEq, Option.some.injEq]
  norm_num

/-- `"1.2.3s"` matches the pattern but its capture group is not a float
literal, so the `float` call raises. -/
theorem parse_123s : parse_cycle_time "1.2.3s" = .error .valueError := by
  have hc : ¬ ("1.2.3s" = "" ∨ emptyCycleSentinels.contains (pyStrip "1.2.3s")) := by decide
  have h3 : searchCycleNum ("1.2.3s").toList = some ['1', '.', '2', '.', '3'] := by decide
  have h4 : floatOfGroup ['1', '.', '2', '.', '3'] = none := by decide
  unfold parse_cycle_time
  rw [if_neg hc, h3]
  simp only [cycleFromSearch]
  rw [h4]
  rfl

/-! ## Claim C2 — cycle-time parsing and the minutes convention -/

/-- C2: `parse_cycle_time` returns null for the empty string, blank strings,
an em-dash, a hyphen and `"N/A"`, and whenever the number-then-`s` pattern
does not occur; when the pattern matches (outside the sentinels) and the
captured group is a valid float literal, the captured number is interpreted
as minutes and multiplied by 60 — in particular `"1.5s"` yields 90.0 seconds
and `"480.0s"` yields 28 800.0 seconds. -/
theorem claim_cycle_time_parsing :
    parse_cycle_time "" = .ok none ∧
    parse_cycle_time "   " = .ok none ∧
    parse_cycle_time "—" = .ok none ∧
    parse_cycle_time "-" = .ok none ∧
    parse_cycle_time "N/A" = .ok none ∧
    (∀ s, searchCycleNum s.toList = none → parse_cycle_time s = .ok none) ∧
    (∀ s g q, s ≠ "" → pyStrip s ∉ emptyCycleSentinels →
      searchCycleNum s.toList = some g → floatOfGroup g = some q →
      parse_cycle_time s = .ok (some (q * 60))) ∧
    parse_cycle_time "1.5s" = .ok (some 90) ∧
    parse_cycle_time "480.0s" = .ok (some 28800) := by
  refine ⟨by decide, by decide, by decide, by decide, by decide, ?_, ?_, ?_, ?_⟩
  · intro s h
    unfold parse_cycle_time
    split
    · rfl
    · rw [h]
      rfl
  · intro s g q h1 h2 h3 h4
    have hc : ¬ (s = "" ∨ emptyCycleSentinels.contains (pyStrip s)) := by
      rintro (h | h)
      · exact h1 h
      · exact h2 (List.elem_iff.mp h)
    unfold parse_cycle_time
    rw [if_neg hc, h3]
    simp only [cycleFromSearch]
    rw [h4]
    rfl
  · have hc : ¬ ("1.5s" = "" ∨ emptyCycleSentinels.contains (pyStrip "1.5s")) := by decide
    have h3 : searchCycleNum ("1.5s").toList = some ['1', '.', '5'] := by decide
    have h4 : floatOfGroup ['1', '.', '5'] = some ((1 : ℚ) + 5 / 10) := by
      unfold floatOfGroup
      rw [if_pos (by decide)]
      have d1 : digitsToNat (['1', '.', '5'].takeWhile (fun c => c ≠ '.')) = 1 := by decide
      have d2 : (['1', '.', '5'].dropWhile (fun c => c ≠ '.')).drop 1 = ['5'] := by decide
      have d3 : digitsToNat ['5'] = 5 := by decide
      rw [d2, d1, d3]
      norm_num
    unfold parse_cycle_time
    rw [if_neg hc, h3]
    simp only [cycleFromSearch]
    rw [h4]
    simp only [cycleFromFloat, Except.ok.injEq, Option.some.injEq]
    norm_num
  · have hc : ¬ ("480.0s" = "" ∨ emptyCycleSentinels.contains (pyStrip "480.0s")) := by decide
    have h3 : searchCycleNum ("480.0s").toList = some ['4', '8', '0', '.', '0'] := by decide
    have h4 : floatOfGroup ['4', '8', '0', '.', '0'] = some (480 : ℚ) := by
      unfold floatOfGroup
      rw [if_pos (by decide)]
      have d1 : digitsToNat (['4', '8', '0', '.', '0'].takeWhile (fun c => c ≠ '.')) = 480 := by
        decide
      have d2 : (['4', '8', '0', '.', '0'].dropWhile (fun c => c ≠ '.')).drop 1 = ['0'] := by
        decide
      have d3 : digitsToNat ['0'] = 0 := by decide
      rw [d2, d1, d3]
      norm_num
    unfold parse_cycle_time
    rw [if_neg hc, h3]
    simp only [cycleFromSearch]
    rw [h4]
    simp only [cycleFromFloat, Except.ok.injEq, Option.some.injEq]
    norm_num

/-- Witness for C2's two universally quantified parts: `"abc"` has no
pattern match and parses to null; `"2 s"` matches with capture `2`, giving
2 minutes = 120 seconds. -/
theorem claim_cycle_time_parsing_witness :
    parse_cycle_time "abc" = .ok none ∧ parse_cycle_time "2 s" = .ok (some 120) := by
  constructor
  · exact claim_cycle_time_parsing.2.2.2.2.2.1 "abc" (by decide)
  · have hf : floatOfGroup ['2'] = some 2 := by
      unfold floatOfGroup
      rw [if_pos (by decide)]
      have d1 : digitsToNat (['2'].takeWhile (fun c => c ≠ '.')) = 2 := by decide
      have d2 : (['2'].dropWhile (fun c => c ≠ '.')).drop 1 = [] := by decide
      rw [d2, d1]
      norm_num [digitsToNat]
    have h := claim_cycle_time_parsing.2.2.2.2.2.2.1 "2 s" ['2'] 2 (by decide) (by decide)
      (by decide) hf
    rw [h]
    norm_num

/-! ## Claim C3 — record-emission condition -/

/-- C3: for every tokenized (≥ 10-cell) row whose processing completes
without raising, a `ProductionRecord` is emitted iff the machine cell is
non-empty and the cycle time parses non-null; otherwise the row yields
`.ok none` — dropped silently, no error.  In particular an em-dash
cycle-time cell always drops the row. -/
theorem claim_record_emission :
    (∀ fd row res, 10 ≤ row.length → rowToRecord fd row = .ok res →
      (res.isSome ↔
        (cellText row 0 ≠ "" ∧ (okSome (parse_cycle_time (cellText row 7))).isSome))) ∧
    (∀ fd row, cellText row 7 = "—" → rowToRecord fd row = .ok none) := by
  constructor
  · intro fd row res hlen hres
    have hl : ¬ row.length < 10 := by omega
    cases hp : parse_cycle_time (cellText row 7) with
    | error e => simp [rowToRecord, hl, hp] at hres
    | ok o =>
      cases o with
      | none =>
        simp [rowToRecord, hl, hp] at hres
        subst hres
        simp [okSome, hp]
      | some ct =>
        by_cases hm : cellText row 0 = ""
        · simp [rowToRecord, hl, hp, hm] at hres
          subst hres
          simp [okSome, hp, hm]
        · simp [rowToRecord, hl, hp, hm] at hres
          subst hres
          simp [okSome, hp, hm]
  · intro fd row h7
    by_cases hl : row.length < 10
    · simp [rowToRecord, hl]
    · simp [rowToRecord, hl, h7, (by decide : parse_cycle_time "—" = .ok none)]

/-- Witness for C3: the well-formed row emits a record (both sides of the
iff hold), and the em-dash row is dropped. -/
theorem claim_record_emission_witness :
    ((some exGoodRec : Option ProductionRecord).isSome ↔
      (cellText exRowGood 0 ≠ "" ∧
        (okSome (parse_cycle_time (cellText exRowGood 7))).isSome)) ∧
    rowToRecord "2024-01-01" exRowDash = .ok none := by
  constructor
  · refine claim_record_emission.1 "2024-01-01" exRowGood (some exGoodRec) (by decide) ?_
    have h7 : cellText exRowGood 4 = "100" := by decide
    simp [rowToRecord, (by decide : ¬ exRowGood.length < 10),
      (by decide : cellText exRowGood 7 = "1s"), parse_1s,
      (by decide : ¬ cellText exRowGood 0 = "")]
    decide
  · exact claim_record_emission.2 "2024-01-01" exRowDash (by decide)

/-! ## Claim C4 — per-row error containment -/

/-- C4: a row whose `ok_parts`/`nok_parts` cells fail integer parsing still
produces a record, with 0 in those fields; and a row that yields no record
(unresolvable cycle time or missing machine) is dropped alone — processing
of the remaining rows is exactly the processing of the batch without it, and
no error reaches the caller. -/
theorem claim_row_error_containment :
    (∀ fd row q, 10 ≤ row.length → cellText row 0 ≠ "" →
      parse_cycle_time (cellText row 7) = .ok (some q) →
      parsePyInt (stripCommas (cellText row 4)) = none →
      parsePyInt (stripCommas (cellText row 5)) = none →
      (okSome (rowToRecord fd row)).map ProductionRecord.ok_parts = some 0 ∧
      (okSome (rowToRecord fd row)).map ProductionRecord.nok_parts = some 0) ∧
    (∀ fd row rest, rowToRecord fd row = .ok none →
      processRows fd (row :: rest) = processRows fd rest) := by
  constructor
  · intro fd row q hlen hm hp h4 h5
    have hl : ¬ row.length < 10 := by omega
    constructor <;> simp [rowToRecord, hl, hp, hm, okSome, h4, h5]
  · intro fd row rest h
    simp [processRows, h]

/-- Witness for C4: the row with `"abc"` and `"x,y"` in the part columns
still emits a record with both counts 0, and dropping the machine-less row
leaves the rest of the batch intact. -/
theorem claim_row_error_containment_witness :
    ((okSome (rowToRecord "2024-01-01" exRowBadNum)).map ProductionRecord.ok_parts = some 0 ∧
      (okSome (rowToRecord "2024-01-01" exRowBadNum)).map ProductionRecord.nok_parts = some 0) ∧
    processRows "2024-01-01" (exRowNoMachine :: [exRowGood]) =
      processRows "2024-01-01" [exRowGood] := by
  constructor
  · refine claim_row_error_containment.1 "2024-01-01" exRowBadNum 60 (by decide) (by decide)
      ?_ (by decide) (by decide)
    rw [(by decide : cellText exRowBadNum 7 = "1s")]
    exact parse_1s
  · refine claim_row_error_containment.2 "2024-01-01" exRowNoMachine [exRowGood] ?_
    rw [rowToRecord]
    simp [(by decide : ¬ exRowNoMachine.length < 10),
      (by decide : cellText exRowNoMachine 7 = "1s"), parse_1s,
      (by decide : cellText exRowNoMachine 0 = "")]

/-! ## Claim C7 — the tokenizer's row threshold -/

/-- None of the three callbacks can put a short row into `data`: start tags
and text never touch `data`, and a row close appends only under the length
check. -/
theorem feedEvent_data_ok (st : ParserState) (e : HtmlEvent)
    (h : ∀ r ∈ st.data, 10 ≤ r.length) :
    ∀ r ∈ (feedEvent st e).data, 10 ≤ r.length := by
  cases e with
  | startTag t c =>
    have hd : (handle_starttag st t c).data = st.data := by
      unfold handle_starttag
      split_ifs <;> rfl
    intro r hr
    exact h r (hd ▸ hr)
  | chunk s =>
    have hd : (handle_data st s).data = st.data := by
      unfold handle_data
      split_ifs <;> rfl
    intro r hr
    exact h r (hd ▸ hr)
  | endTag t =>
    intro r hr
    simp only [feedEvent] at hr
    unfold handle_endtag at hr
    split_ifs at hr with h1 h2 h3 h4
    · exact h r hr
    · simp only [List.mem_append, List.mem_singleton] at hr
      rcases hr with hr | hr
      · exact h r hr
      · exact hr ▸ h3
    · exact h r hr
    · exact h r hr
    · exact h r hr

/-- The invariant carried over a whole event stream. -/
theorem foldl_data_ok :
    ∀ (evs : List HtmlEvent) (st : ParserState),
      (∀ r ∈ st.data, 10 ≤ r.length) →
      ∀ r ∈ (evs.foldl feedEvent st).data, 10 ≤ r.length
  | [], _, h => h
  | e :: evs, st, h => foldl_data_ok evs (feedEvent st e) (feedEvent_data_ok st e h)

/-- C7: for every input event stream, the tokenizer's output contains no row
with fewer than 10 cells — a row is appended on row close only when it has
accumulated at least 10 cells, and is otherwise discarded silently. -/
theorem claim_row_threshold (events : List HtmlEvent) (row : List RawCell)
    (h : row ∈ tokenize events) : 10 ≤ row.length :=
  foldl_data_ok events initState (by simp [initState]) row h

/-- Witness for C7 on a document containing a 3-cell row and a 10-cell row:
the only emitted row is the 10-cell one. -/
theorem claim_row_threshold_witness : 10 ≤ exRowGood.length :=
  claim_row_threshold exEventsShort exRowGood (by decide)

/-! ## Claim C10 — a malformed float discards the whole document -/

/-- The well-formed row extracts to `exGoodRec`. -/
theorem rowToRecord_exRowGood :
    rowToRecord "2024-01-01" exRowGood = .ok (some exGoodRec) := by
  rw [rowToRecord]
  simp [(by decide : ¬ exRowGood.length < 10),
    (by decide : cellText exRowGood 7 = "1s"), parse_1s,
    (by decide : ¬ cellText exRowGood 0 = "")]
  decide

/-- C10: a single cycle-time cell whose captured number `1.2.3` is rejected
by `float` raises an exception that escapes `parse_cycle_time` and is caught
only by the document-level handler of `extract_production_data`, which then
returns the empty record list: the same document without the malformed row
yields its good row's record, but with the malformed row present every row
of the document is discarded. -/
theorem claim_document_level_abort :
    parse_cycle_time "1.2.3s" = .error .valueError ∧
    extract_production_data "2024-01-01" exEventsGood = [exGoodRec] ∧
    extract_production_data "2024-01-01" exEventsBad = [] := by
  refine ⟨parse_123s, ?_, ?_⟩
  · have ht : tokenize exEventsGood = [exRowGood] := by decide
    rw [extract_production_data, ht]
    simp [processRows, rowToRecord_exRowGood]
  · have ht : tokenize exEventsBad = [exRowGood, exRowExn] := by decide
    have h2 : rowToRecord "2024-01-01" exRowExn = .error .valueError := by
      rw [rowToRecord]
      simp [(by decide : ¬ exRowExn.length < 10),
        (by decide : cellText exRowExn 7 = "1.2.3s"), parse_123s]
    rw [extract_production_data, ht]
    simp [processRows, rowToRecord_exRowGood, h2]

/-! ## Claim C8 — order-(in)dependence of the aggregation -/

/-- Permuting one machine's records leaves every finalized statistic
unchanged; only the `records` list itself follows arrival order. -/
theorem sameStats_of_perm (ms ms' : List ProductionRecord)
    (hp : List.Perm ms ms') :
    SameStats (finalizeStats (machineFold ms)) (finalizeStats (machineFold ms')) := by
  have hfilter : ∀ (p : ProductionRecord → Bool),
      List.Perm (ms.filter p) (ms'.filter p) := fun p => hp.filter p
  have hsumOkF : ∀ (p : ProductionRecord → Bool),
      sumOk (ms.filter p) = sumOk (ms'.filter p) :=
    fun p => ((hfilter p).map ProductionRecord.ok_parts).sum_eq
  have hsumOkAll : sumOk ms = sumOk ms' :=
    (hp.map ProductionRecord.ok_parts).sum_eq
  have hany : ms.any (fun r => r.is_sample) = ms'.any (fun r => r.is_sample) := by
    simp [List.any_eq, hp.mem_iff]
  have e_tp : (machineFold ms).total_parts = (machineFold ms').total_parts := by
    rw [machineFold, machineFold, foldl_total_parts, foldl_total_parts]
    unfold productionOnly
    rw [hsumOkF]
  have e_tpws : (machineFold ms).total_parts_with_samples =
      (machineFold ms').total_parts_with_samples := by
    rw [machineFold, machineFold, foldl_total_parts_with_samples,
      foldl_total_parts_with_samples, hsumOkAll]
  have e_sp : (machineFold ms).sample_parts = (machineFold ms').sample_parts := by
    rw [machineFold, machineFold, foldl_sample_parts, foldl_sample_parts]
    unfold sampleOnly
    rw [hsumOkF]
  have e_ts : (machineFold ms).total_seconds = (machineFold ms').total_seconds := by
    rw [machineFold, machineFold, foldl_total_seconds, foldl_total_seconds]
    unfold productionOnly sumRunSeconds
    rw [((hfilter _).map (fun r => (r.ok_parts : ℚ) * r.cycle_time)).sum_eq]
  have e_tsws : (machineFold ms).total_seconds_with_samples =
      (machineFold ms').total_seconds_with_samples := by
    rw [machineFold, machineFold, foldl_total_seconds_with_samples,
      foldl_total_seconds_with_samples]
  have e_ss : (machineFold ms).sample_seconds = (machineFold ms').sample_seconds := by
    rw [machineFold, machineFold, foldl_sample_seconds, foldl_sample_seconds, hany]
  have e_hs : (machineFold ms).has_samples = (machineFold ms').has_samples := by
    rw [machineFold, machineFold, foldl_has_samples, foldl_has_samples, hany]
  have e_rec : List.Perm (machineFold ms).records (machineFold ms').records := by
    rw [machineFold, machineFold, foldl_records, foldl_records]
    simpa [emptyAcc] using hp
  have e_dates : (machineFold ms).dates = (machineFold ms').dates := by
    rw [machineFold, machineFold, foldl_dates, foldl_dates,
      List.toFinset_eq_of_perm _ _ (hp.map ProductionRecord.date)]
  have e_items : (machineFold ms).items = (machineFold ms').items := by
    rw [machineFold, machineFold, foldl_items, foldl_items,
      List.toFinset_eq_of_perm _ _ (hp.map ProductionRecord.item)]
  have e_shifts : (machineFold ms).shifts = (machineFold ms').shifts := by
    rw [machineFold, machineFold, foldl_shifts, foldl_shifts,
      List.toFinset_eq_of_perm _ _ (hp.map ProductionRecord.shift)]
  have e_co : ∀ t, countOf (machineFold ms).shift_counts t =
      countOf (machineFold ms').shift_counts t := by
    intro t
    rw [machineFold, machineFold, foldl_countOf, foldl_countOf,
      hp.countP_eq (fun r => decide (r.shift = t))]
  have e_ct : countsTotal (machineFold ms).shift_counts =
      countsTotal (machineFold ms').shift_counts := by
    rw [machineFold, machineFold, foldl_countsTotal, foldl_countsTotal, hp.length_eq]
  unfold SameStats
  simp only [finalizeStats_eq]
  exact ⟨e_tp, e_tpws, e_sp, e_ts, e_tsws, e_ss, e_hs, e_rec,
    by rw [e_dates], by rw [e_items], by rw [e_shifts], e_co, e_ct,
    by rw [e_ts], by rw [e_ss], by rw [e_ts, e_ss], by rw [e_ct],
    by rw [e_ct, e_ts, e_ss], by rw [e_ct, e_ts, e_ss], by rw [e_ct, e_ts, e_ss]⟩

/-- C8 (amended): permuting the input records yields, for every machine, the
same finalized statistics in every field except the `records` drill-down
list, which is only a permutation; `shift_counts` agrees as a mapping
(Python dict equality).  The original claim's full equality of results fails
only because each machine's `records` list follows arrival order. -/
theorem claim_order_independence_amended (rs rs' : List ProductionRecord)
    (h : List.Perm rs rs') (m : String) :
    SameStatsO (statsOf rs m) (statsOf rs' m) := by
  have hp : List.Perm (machineRecords rs m) (machineRecords rs' m) := by
    unfold machineRecords
    exact h.filter _
  rw [statsOf_char, statsOf_char]
  by_cases hms : machineRecords rs m = []
  · have hlen := hp.length_eq
    rw [hms] at hlen
    have hms' : machineRecords rs' m = [] := List.length_eq_zero.mp hlen.symm
    rw [if_pos hms, if_pos hms']
    trivial
  · have hms' : machineRecords rs' m ≠ [] := by
      intro hE
      apply hms
      have hlen := hp.length_eq
      rw [hE] at hlen
      exact List.length_eq_zero.mp hlen
    rw [if_neg hms, if_neg hms']
    exact sameStats_of_perm _ _ hp

/-- Witness for C8 (amended): the two-record permutation for machine `M1`. -/
theorem claim_order_independence_amended_witness :
    SameStatsO (statsOf [exRecA, exRecB] "M1") (statsOf [exRecB, exRecA] "M1") :=
  claim_order_independence_amended [exRecA, exRecB] [exRecB, exRecA]
    (List.Perm.swap exRecB exRecA []) "M1"

/-- The `records` field of an existing machine's finalized statistics is
exactly its records in arrival order. -/
theorem statsOf_records_eq (rs : List ProductionRecord) (m : String)
    (h : machineRecords rs m ≠ []) :
    (statsOf rs m).map MachineStats.records = some (machineRecords rs m) := by
  rw [statsOf_char, if_neg h]
  simp only [Option.map_some, finalizeStats_eq]
  rw [machineFold, foldl_records]
  simp [emptyAcc]

/-- Counterexample to C8 as stated: swapping the two `M1` records changes
the returned structure — the machine's `records` list comes out in the other
order, so the two results of `calculate_running_hours` are not equal. -/
theorem claim_order_independence_counterexample :
    calculate_running_hours [exRecA, exRecB] true ≠
      calculate_running_hours [exRecB, exRecA] true := by
  intro h
  have h2 := congrArg (fun l => (assocFind l "M1").map MachineStats.records) h
  dsimp only at h2
  have e1 := statsOf_records_eq [exRecA, exRecB] "M1" (by decide)
  have e2 := statsOf_records_eq [exRecB, exRecA] "M1" (by decide)
  unfold statsOf at e1 e2
  rw [e1, e2] at h2
  exact absurd (Option.some.inj h2)
    (by decide : machineRecords [exRecA, exRecB] "M1" ≠ machineRecords [exRecB, exRecA] "M1")

end Cnc
